import Mathlib

/-!
Shallow embedding of the metadata-extraction pipeline of the `heyzo`
movie provider (`provider/heyzo/heyzo.go`) and the `xslist` actor
provider, together with proofs about its field-merge semantics,
identifier normalization, search results and nested preview-media
resolution.

Strings are embedded as Lean `String` (a wrapper around `List Char`);
machinery operating on character lists mirrors the Go standard-library
and RE2 primitives the source uses.  The document-fetching layer
(colly), HTML traversal and JSON decoding are external collaborators:
each extractor callback is embedded as a handler over the data that the
callback reads from its matched node, and a document fetch outcome is a
list of such callback events (in callback-registration order, which is
the order colly fires them) or a fetch error.
-/

namespace MetaTube

/-- Errors of the document-fetching layer, kept abstract. -/
abbrev Err := String

/-- Go regexp `\d` (RE2 without the unicode flag): the ASCII digits. -/
def digitChars : List Char := ['0', '1', '2', '3', '4', '5', '6', '7', '8', '9']

def isDigitChar (c : Char) : Bool := decide (c ∈ digitChars)

/-- A non-empty all-digit character list (`\d+` anchored on both sides). -/
def isDigits (cs : List Char) : Bool := !cs.isEmpty && cs.all isDigitChar

/-- Go regexp `\s` (RE2): ASCII whitespace. -/
def isGoSpace (c : Char) : Bool :=
  [' ', '\t', '\n', '\x0b', '\x0c', '\r'].contains c

/-- Go `strings.TrimSpace` (restricted to its ASCII behaviour). -/
def goTrimSpace (s : String) : String :=
  String.mk (((s.toList.dropWhile isGoSpace).reverse.dropWhile isGoSpace).reverse)

/-- Go `strings.SplitN(s, sep, 2)` for a one-character separator:
a one-element list when `sep` does not occur, otherwise the part before
the first occurrence and everything after it. -/
def splitN2 (sep : Char) (s : String) : List String :=
  let cs := s.toList
  if cs.contains sep then
    [String.mk (cs.takeWhile (fun c => c ≠ sep)),
     String.mk ((cs.dropWhile (fun c => c ≠ sep)).drop 1)]
  else
    [s]

/-- Go `strings.Trim(s, "-")`: strip leading and trailing dashes. -/
def trimDashes (s : String) : String :=
  String.mk (((s.toList.dropWhile (fun c => c = '-')).reverse.dropWhile
    (fun c => c = '-')).reverse)

/-- Go `strings.TrimRight(s, "cm")`: strip trailing characters drawn
from the cutset, not a suffix. -/
def trimRightCM (s : String) : String :=
  String.mk ((s.toList.reverse.dropWhile (fun c => c = 'c' ∨ c = 'm')).reverse)

/-- Take all but the last `n` characters (Go byte slicing `s[:len(s)-n]`,
restricted to character boundaries). -/
def dropRightChars (s : String) (n : Nat) : String :=
  String.mk (s.toList.take (s.toList.length - n))

/-- Go `strings.TrimSuffix(s, "Cup")`. -/
def trimSuffixCup (s : String) : String :=
  if s.toList.reverse.take 3 = ['p', 'u', 'C'] then dropRightChars s 3 else s

/-- Go `strings.ReplaceAll(s, "n/a", "")` on character lists: scan left
to right, dropping each occurrence of `n/a`. -/
def removeNAChars : List Char → List Char
  | 'n' :: '/' :: 'a' :: t => removeNAChars t
  | c :: t => c :: removeNAChars t
  | [] => []

/-- Go `strings.ReplaceAll(s, "n/a", "")`. -/
def removeNA (s : String) : String := String.mk (removeNAChars s.toList)

/-- Go `path.Ext`: the suffix beginning at the final dot in the final
slash-separated element of the path; empty when there is no dot. -/
def pathExt (p : String) : String :=
  let seg := p.toList.reverse.takeWhile (fun c => c ≠ '/')
  if seg.contains '.' then
    String.mk ((seg.takeWhile (fun c => c ≠ '.') ++ ['.']).reverse)
  else
    ""

/-- Go `path.Base`: the last element of the path, after removing
trailing slashes; `"."` for the empty path, `"/"` for an all-slash path. -/
def pathBase (p : String) : String :=
  if p = "" then "." else
  let r := p.toList.reverse.dropWhile (fun c => c = '/')
  if r.isEmpty then "/" else String.mk ((r.takeWhile (fun c => c ≠ '/')).reverse)

/-- Modelled from the spec: the document source's URL absolutization
(`e.Request.AbsoluteURL`, an external collaborator of the core): an
already-absolute reference is kept, a relative one is resolved against
the page URL (modelled by concatenation; no claim inspects its value). -/
def absoluteURL (base rel : String) : String :=
  if rel.toList.take 4 = "http".toList then rel else base ++ rel

/-- Modelled from the spec: the external generic number-parsing utility
(`parser.ParseInt` of `common/parser`, not part of the extraction core):
the decimal value of the whitespace-trimmed input when it is all digits,
`0` otherwise. -/
def parseInt (s : String) : Int :=
  let t := (goTrimSpace s).toList
  if isDigits t then
    t.foldl (fun a c => a * 10 + (Int.ofNat c.toNat - 48)) 0
  else 0

/-- Modelled from the spec: values produced by the external date-parsing
utilities.  `parsed raw` stands for `parser.ParseDate raw` (kept
abstract as the raw string), `ymd` for a directly constructed
`time.Date`, `zero` for Go's zero `time.Time`. -/
inductive GoTime where
  | zero : GoTime
  | parsed (raw : String) : GoTime
  | ymd (y m d : Int) : GoTime
deriving DecidableEq, Repr

/-- Modelled from the spec: `parser.ParseDate`, external pure function. -/
def parseDate (s : String) : GoTime := GoTime.parsed s

/-- Modelled from the spec: `parser.ParseRuntime`, external pure
function, kept abstract as the raw string it was given. -/
structure GoRuntime where
  raw : String
deriving DecidableEq, Repr

def parseRuntime (s : String) : GoRuntime := GoRuntime.mk s

/-- Modelled from the spec: `parser.ParseScore`, external pure function,
kept abstract as the raw string it was given. -/
structure GoScore where
  raw : String
deriving DecidableEq, Repr

def parseScore (s : String) : GoScore := GoScore.mk s

/-- Modelled from the spec: `url.QueryEscape`, external; no claim
inspects its value. -/
def queryEscape (s : String) : String := s

end MetaTube

namespace MetaTube.Heyzo

/-- `NormalizeID`'s regexp `^(?i)(?:heyzo-)?(\d+)$` on character lists:
on a match the digit group is returned, otherwise the empty list.  The
optional case-insensitive `heyzo-` prefix is checked by lower-casing the
first six characters; the digit group is everything after it (or the
whole input when the prefix is absent). -/
def normalizeIDChars (cs : List Char) : List Char :=
  if (cs.map Char.toLower).take 6 = "heyzo-".toList ∧ isDigits (cs.drop 6) then
    cs.drop 6
  else if isDigits cs then
    cs
  else
    []

/-- `func (hzo *Heyzo) NormalizeID(id string) string`
(`provider/heyzo/heyzo.go`): the submatch of
`^(?i)(?:heyzo-)?(\d+)$` when the input matches, `""` otherwise. -/
def NormalizeID (id : String) : String :=
  String.mk (normalizeIDChars id.toList)


/-- Regexp `/sample/(\d+)/(\d+)/ts\.(.+?)\.m3u8` applied to the nested
manifest's media URI, lazy fragment part: consume at least one
non-newline character (RE2 `.` does not match a newline), stopping at
the shortest fragment that is immediately followed by `.m3u8`. -/
def fragSearch (acc : List Char) : List Char → Option (List Char)
  | [] => none
  | c :: rest =>
    if c = '\n' then none
    else if rest.take 5 = ".m3u8".toList then some (acc ++ [c])
    else fragSearch (acc ++ [c]) rest

/-- Attempt the sample-URI pattern anchored at the head of the list:
literal `/sample/`, a digit group, `/`, a digit group, `/ts.`, then the
lazy fragment.  The greedy `\d+` groups need no backtracking because the
following literal `/` is not a digit. -/
def matchSampleAt (cs : List Char) : Option (List Char × List Char × List Char) :=
  if cs.take 8 = "/sample/".toList then
    let r1 := cs.drop 8
    let d1 := r1.takeWhile isDigitChar
    let r2 := r1.dropWhile isDigitChar
    if !d1.isEmpty && r2.take 1 = ['/'] then
      let r3 := r2.drop 1
      let d2 := r3.takeWhile isDigitChar
      let r4 := r3.dropWhile isDigitChar
      if !d2.isEmpty && r4.take 4 = "/ts.".toList then
        match fragSearch [] (r4.drop 4) with
        | some frag => some (d1, d2, frag)
        | none => none
      else none
    else none
  else none

/-- Leftmost search of the sample-URI pattern (Go
`regexp.FindStringSubmatch` semantics: the match starting earliest). -/
def searchSample : List Char → Option (List Char × List Char × List Char)
  | [] => none
  | c :: t =>
    match matchSampleAt (c :: t) with
    | some r => some r
    | none => searchSample t

/-- `regexp.MustCompile("/sample/(\\d+)/(\\d+)/ts\\.(.+?)\\.m3u8").FindStringSubmatch`:
the three capture groups, or `none` when the URI does not contain the
pattern. -/
def sampleMatch (s : String) : Option (String × String × String) :=
  (searchSample s.toList).map fun r =>
    (String.mk r.1, String.mk r.2.1, String.mk r.2.2)

/-- The decoded `application/ld+json` payload (`json.Unmarshal` target
struct in `GetMovieInfoByURL`); absent JSON fields decode to `""`. -/
structure LdJson where
  name : String := ""
  image : String := ""
  description : String := ""
  startDate : String := ""
  duration : String := ""
  actor : String := ""
  provider : String := ""
  ratingValue : String := ""
deriving DecidableEq, Repr

/-- `model.MovieInfo`, restricted to the fields `heyzo.go` touches. -/
structure MovieInfo where
  id : String := ""
  number : String := ""
  provider : String := ""
  homepage : String := ""
  maker : String := ""
  title : String := ""
  series : String := ""
  summary : String := ""
  coverURL : String := ""
  thumbURL : String := ""
  releaseDate : MetaTube.GoTime := MetaTube.GoTime.zero
  runtime : MetaTube.GoRuntime := MetaTube.GoRuntime.mk ""
  score : MetaTube.GoScore := MetaTube.GoScore.mk ""
  actors : List String := []
  tags : List String := []
  previewVideoURL : String := ""
  previewVideoHLSURL : String := ""
  previewImages : List String := []
deriving DecidableEq, Repr

/-- Outcome of the nested manifest fetch (`d.Visit(m3u8Link)`):
`mediaURI` is the result of `m3u8.ParseMediaURI` on the response body,
`none` when that parse returned an error. -/
structure NestedResp where
  mediaURI : Option String
deriving DecidableEq, Repr

/-- Data the `//*[@id="playerContainer"]/script` callback reads from its
node and environment: the `movieId` substring test, the three regexp
submatches carved from the script text, and — when the handler issues
the nested visit — the outcome of that fetch (`none` = fetch error). -/
structure PlayerScript where
  hasMovieId : Bool
  movieIdTok : Option String
  siteIdTok : Option String
  streamTpl : Option (String × String × String)
  fetchResult : Option NestedResp
deriving DecidableEq, Repr

/-- The `d.OnResponse` closure body: always record the visited manifest
URL as the HLS preview URL (the write sits in a `defer`, so it happens
on every received response), and rewrite the preview-video URL only when
the parsed media URI carries the sample pattern
(`fmt.Sprintf(sampleURL, ss[1], ss[2], ss[3])`). -/
def handleNestedResponse (link : String) (resp : NestedResp) (info : MovieInfo) :
    MovieInfo :=
  let info :=
    match resp.mediaURI with
    | some uri =>
      match sampleMatch uri with
      | some (s1, s2, s3) =>
        { info with previewVideoURL :=
            "https://www.heyzo.com/contents/" ++ s1 ++ "/" ++ s2 ++ "/" ++ s3 }
      | none => info
    | none => info
  { info with previewVideoHLSURL := link }

/-- The `//*[@id="playerContainer"]/script` callback: check the
`movieId` substring, extract `movieId`/`siteID`/the stream template,
and, when all are present, visit the absolutized manifest link.  The
second component is the link the handler visited (`none` when it
returned before issuing the nested fetch); the `d.Visit` error itself is
discarded by the source. -/
def handlePlayer (hp : String) (ev : PlayerScript) (info : MovieInfo) :
    MovieInfo × Option String :=
  if !ev.hasMovieId then (info, none) else
  let movieID := ev.movieIdTok.getD ""
  let siteID := ev.siteIdTok.getD ""
  if movieID = "" || siteID = "" then (info, none) else
  match ev.streamTpl with
  | none => (info, none)
  | some (tplA, tplB, tplC) =>
    let link := MetaTube.absoluteURL hp (tplA ++ siteID ++ tplB ++ movieID ++ tplC)
    match ev.fetchResult with
    | none => (info, some link)
    | some resp => (handleNestedResponse link resp info, some link)

/-- One fired extractor callback of `GetMovieInfoByURL`, carrying the
data the callback reads from its matched node.  Constructors appear in
callback-registration order, which is the order colly runs them. -/
inductive Event where
  /-- `//script[@type="application/ld+json"]`; `none` = `json.Unmarshal`
  failed. -/
  | ldJson (data : Option LdJson)
  /-- `//*[@id="movie"]/h1`; carries `strings.Fields(e.Text)` (the Go
  code indexes `[0]`, which keeps the title unchanged when the guard
  `info.Title == ""` fails; on a whitespace-only node the Go code would
  panic — modelled as writing the empty head default, which the guard
  makes a no-op). -/
  | movieTitle (fields : List String)
  /-- `//p[@class="memo"]`; carries `e.Text`. -/
  | memo (text : String)
  /-- `//meta[@property="og:image"]`; carries the `content` attribute. -/
  | ogImage (content : String)
  /-- one `//table[@class="movieInfo"]/tbody/tr` row: the `td[1]` label,
  the `td[2]` text, the `td[2]/a/span` texts and the
  `span[@itemprop="ratingValue"]` text. -/
  | infoRow (label td2 : String) (spans : List String) (rating : String)
  /-- `//ul[@class="tag-keyword-list"]`; carries the `li/a` texts. -/
  | tagList (tags : List String)
  /-- `//script[@type="text/javascript"]`: the `emvideo = "(.+?)";`
  submatch (present only when the substring test and regexp matched) and
  the decoded `full` field of the `o = {...}` JSON island (present only
  when the substring test, the regexp and `json.Unmarshal` succeeded). -/
  | jsScript (emvideo : Option String) (oFull : Option String)
  /-- `//*[@id="playerContainer"]/script`, see `PlayerScript`. -/
  | playerScript (ev : PlayerScript)
  /-- `//div[@class="sample-images yoxview"]/script`; carries the
  `"(/contents/.+/\d+?\.\w+?)"` submatches in order. -/
  | sampleImages (subs : List String)
deriving DecidableEq, Repr

/-- Apply one callback to the record under construction (`hp` is the
visited page URL, the base for `e.Request.AbsoluteURL`). -/
def applyEvent (hp : String) (info : MovieInfo) : Event → MovieInfo
  | .ldJson none => info
  | .ldJson (some d) =>
    { info with
      title := d.name
      summary := d.description
      coverURL := MetaTube.absoluteURL hp d.image
      thumbURL := MetaTube.absoluteURL hp d.image
      releaseDate := MetaTube.parseDate d.startDate
      runtime := MetaTube.parseRuntime d.duration
      score := MetaTube.parseScore d.ratingValue
      maker := if d.provider ≠ "" then d.provider else info.maker
      actors := if d.actor ≠ "" then [d.actor] else info.actors }
  | .movieTitle fields =>
    if info.title = "" then { info with title := fields.headD "" } else info
  | .memo text =>
    if info.summary = "" then { info with summary := MetaTube.goTrimSpace text }
    else info
  | .ogImage content =>
    if info.coverURL = "" then
      { info with
        coverURL := MetaTube.absoluteURL hp content
        thumbURL := MetaTube.absoluteURL hp content }
    else info
  | .infoRow label td2 spans rating =>
    if label = "公開日" then { info with releaseDate := MetaTube.parseDate td2 }
    else if label = "出演" then { info with actors := spans }
    else if label = "シリーズ" then { info with series := MetaTube.trimDashes td2 }
    else if label = "評価" then { info with score := MetaTube.parseScore rating }
    else info
  | .tagList tags => { info with tags := tags }
  | .jsScript emvideo oFull =>
    let info :=
      match emvideo with
      | some v => { info with previewVideoURL := MetaTube.absoluteURL hp v }
      | none => info
    match oFull with
    | some f => { info with runtime := MetaTube.parseRuntime f }
    | none => info
  | .playerScript pev => (handlePlayer hp pev info).1
  | .sampleImages subs =>
    { info with previewImages :=
        info.previewImages ++ subs.map (MetaTube.absoluteURL hp) }

/-- Run the registered callbacks over the fetched document. -/
def runEvents (hp : String) (evs : List Event) (info : MovieInfo) : MovieInfo :=
  evs.foldl (applyEvent hp) info

/-- The seeded record of `GetMovieInfoByURL` (identifier-derived
defaults written before the visit). -/
def seedMovieInfo (id rawURL : String) : MovieInfo :=
  { id := id
    number := "HEYZO-" ++ id
    provider := "HEYZO"
    homepage := rawURL
    maker := "HEYZO"
    actors := []
    previewImages := []
    tags := [] }

/-- `func (hzo *Heyzo) GetMovieInfoByURL`: `idResult` models
`ParseIDFromURL` (an error only when `url.Parse` fails), `fetch` models
`c.Visit` (on a fetch error no callback runs and the error lands in the
named return `err`, while the named return `info` already holds the
seeded record). -/
def GetMovieInfoByURL (rawURL : String) (idResult : Except MetaTube.Err String)
    (fetch : Except MetaTube.Err (List Event)) :
    Option MovieInfo × Option MetaTube.Err :=
  match idResult with
  | .error e => (none, some e)
  | .ok id =>
    let info := seedMovieInfo id rawURL
    match fetch with
    | .error e => (some info, some e)
    | .ok evs => (some (runEvents rawURL evs info), none)

end MetaTube.Heyzo

namespace MetaTube.XsList

/-- The provider name constant of `xslist.go` (`const name = "xslist"`). -/
def providerName : String := "xslist"

/-- Modelled from the spec: a parsed URL (`url.Parse` result, an
external collaborator), carrying the component the source reads.
`str` is what `URL.String()` renders (the round-tripped input). -/
structure GoURL where
  str : String
  path : String
deriving DecidableEq, Repr

/-- `model.ActorInfo`, restricted to the fields `xslist.go` touches. -/
structure ActorInfo where
  id : String := ""
  name : String := ""
  provider : String := ""
  homepage : String := ""
  birthday : MetaTube.GoTime := MetaTube.GoTime.zero
  debutDate : MetaTube.GoTime := MetaTube.GoTime.zero
  measurements : String := ""
  cupSize : String := ""
  bloodType : String := ""
  height : Int := 0
  nationality : String := ""
  aliases : List String := []
  images : List String := []
deriving DecidableEq, Repr

/-- `model.ActorSearchResult`. -/
structure ActorSearchResult where
  id : String := ""
  name : String := ""
  provider : String := ""
  homepage : String := ""
  images : List String := []
deriving DecidableEq, Repr

/-- A child node of the `//*[@id="layout"]/div/p[1]` element: the
free-text key/value extractor walks the DOM children and looks only at
text nodes. -/
inductive XNode where
  | text (data : String)
  | elem
deriving DecidableEq, Repr

/-- Regexp `^([\s\d]+)年([\s\d]+)月$` of `parseDebutDate`: the two
groups when the whole string has that shape. -/
def debutMatch (cs : List Char) : Option (List Char × List Char) :=
  let isSD := fun c => MetaTube.isGoSpace c || MetaTube.isDigitChar c
  let a := cs.takeWhile isSD
  match cs.dropWhile isSD with
  | '年' :: r2 =>
    let b := r2.takeWhile isSD
    match r2.dropWhile isSD with
    | ['月'] => if !a.isEmpty && !b.isEmpty then some (a, b) else none
    | _ => none
  | _ => none

/-- `func parseDebutDate(s string) time.Time`: a `YYYY年MM月` string
becomes the first day of that month, anything else falls back to
`parser.ParseDate`. -/
def parseDebutDate (s : String) : MetaTube.GoTime :=
  match debutMatch s.toList with
  | some (a, b) =>
    MetaTube.GoTime.ymd (MetaTube.parseInt (String.mk a))
      (MetaTube.parseInt (String.mk b)) 1
  | none => MetaTube.parseDate s

/-- One text line of the free-text key/value block: trim, split on the
first colon, trim the value, skip empty and `"n/a"` values, dispatch on
the label (unknown labels are ignored). -/
def applyFieldLine (info : ActorInfo) : XNode → ActorInfo
  | .elem => info
  | .text data =>
    match MetaTube.splitN2 ':' (MetaTube.goTrimSpace data) with
    | [k, v0] =>
      let v := MetaTube.goTrimSpace v0
      if v = "" ∨ v = "n/a" then info
      else if k = "出生" then { info with birthday := MetaTube.parseDate v }
      else if k = "三围" then
        { info with measurements := (v.toList.filter (fun c => c ≠ ' ')).asString }
      else if k = "罩杯" then
        { info with cupSize := MetaTube.goTrimSpace (MetaTube.trimSuffixCup v) }
      else if k = "出道日期" then { info with debutDate := parseDebutDate v }
      else if k = "血型" then { info with bloodType := v }
      else if k = "身高" then
        { info with height := MetaTube.parseInt (MetaTube.trimRightCM v) }
      else if k = "国籍" then { info with nationality := v }
      else info
    | _ => info

/-- One fired extractor callback of `GetActorInfoByURL`, in
callback-registration order (the order colly runs them). -/
inductive Event where
  /-- `//*[@id="sss1"]/header/h1/span`; carries `e.Text`. -/
  | nameSpan (text : String)
  /-- `//*[@id="sss1"]/p/span`; carries `e.Text`. -/
  | aliasSpan (text : String)
  /-- `//*[@id="gallery"]/a`; carries the `class`, `href`,
  `data-width` and `data-height` attributes. -/
  | galleryLink (cls href dataWidth dataHeight : String)
  /-- `//*[@id="layout"]/div/p[1]`; carries the DOM child nodes. -/
  | fieldsP (nodes : List XNode)
  /-- `//span[@itemprop="height"]`; carries `e.Text`. -/
  | heightSpan (text : String)
  /-- `//span[@itemprop="nationality"]`; carries `e.Text`. -/
  | natSpan (text : String)
deriving DecidableEq, Repr

/-- Apply one callback to the actor record under construction. -/
def applyEvent (info : ActorInfo) : Event → ActorInfo
  | .nameSpan text => { info with name := text }
  | .aliasSpan text => { info with aliases := info.aliases ++ [text] }
  | .galleryLink cls href dataWidth dataHeight =>
    if cls = "profile_img" then info
    else if MetaTube.parseInt dataWidth = 0 ∨ MetaTube.parseInt dataHeight = 0 then
      info
    else { info with images := info.images ++ [href] }
  | .fieldsP nodes => nodes.foldl applyFieldLine info
  | .heightSpan text =>
    { info with height := MetaTube.parseInt (MetaTube.trimRightCM text) }
  | .natSpan text => { info with nationality := MetaTube.removeNA text }

/-- Run the registered callbacks over the fetched document. -/
def runEvents (evs : List Event) (info : ActorInfo) : ActorInfo :=
  evs.foldl applyEvent info

/-- The seeded actor record of `GetActorInfoByURL`: the id is the base
name of the homepage path with its extension cut off (and stays empty
when the path has no extension). -/
def seedActorInfo (homepage : GoURL) : ActorInfo :=
  let id :=
    if MetaTube.pathExt homepage.path ≠ "" then
      MetaTube.pathBase
        (MetaTube.dropRightChars homepage.path
          (MetaTube.pathExt homepage.path).toList.length)
    else ""
  { id := id
    provider := providerName
    homepage := homepage.str
    aliases := []
    images := [] }

/-- `func (xsl *XsList) GetActorInfoByURL`: `parsed` models `url.Parse`
of the argument, `fetch` models `c.Visit` (on a fetch error no callback
runs; the named return `info` already holds the seeded record). -/
def GetActorInfoByURL (parsed : Except MetaTube.Err GoURL)
    (fetch : Except MetaTube.Err (List Event)) :
    Option ActorInfo × Option MetaTube.Err :=
  match parsed with
  | .error e => (none, some e)
  | .ok pu =>
    let info := seedActorInfo pu
    match fetch with
    | .error e => (some info, some e)
    | .ok evs => (some (runEvents evs info), none)

/-- Data the `//ul/li` search callback reads from one listing node:
the `href` and `title` attributes of `.//h3/a`, the path component of
the parsed `href`, and the `src` attribute of `.//div[1]/img`. -/
structure Listing where
  href : String
  hrefPath : String
  title : String
  img : String
deriving DecidableEq, Repr

/-- The `//ul/li` search callback of `SearchActor`.  Note the source
declares `name := e.ChildAttr(...)` inside the callback, shadowing the
package-level provider-name constant, so the `Provider` field of the
result receives the hyphen-stripped display name. -/
def handleListing (base : String) (l : Listing) : ActorSearchResult :=
  let id0 := MetaTube.pathBase l.hrefPath
  let id :=
    if MetaTube.pathExt id0 ≠ "" then
      MetaTube.dropRightChars id0 (MetaTube.pathExt id0).toList.length
    else id0
  let dispName :=
    match MetaTube.splitN2 '-' l.title with
    | [_, after] => MetaTube.goTrimSpace after
    | _ => l.title
  let images := if l.img ≠ "" then [MetaTube.absoluteURL base l.img] else []
  { id := id
    name := dispName
    images := images
    provider := dispName
    homepage := l.href }

/-- The search page URL (`fmt.Sprintf(searchURL, url.QueryEscape(keyword))`). -/
def searchPageURL (keyword : String) : String :=
  "https://xslist.org/search?query=" ++ MetaTube.queryEscape keyword ++ "&lg=zh"

/-- `func (xsl *XsList) SearchActor`: one result per matched listing
node in document order; on a fetch error no callback runs and the named
return `results` stays nil. -/
def SearchActor (keyword : String)
    (fetch : Except MetaTube.Err (List Listing)) :
    List ActorSearchResult × Option MetaTube.Err :=
  match fetch with
  | .error e => ([], some e)
  | .ok ls => (ls.map (handleListing (searchPageURL keyword)), none)

end MetaTube.XsList

namespace MetaTube

theorem isDigitChar_toLower {c : Char} (h : isDigitChar c = true) :
    c.toLower = c := by
  simp only [isDigitChar, digitChars, List.mem_cons, List.not_mem_nil, or_false,
    decide_eq_true_eq] at h
  rcases h with h | h | h | h | h | h | h | h | h | h <;> subst h <;> decide

theorem all_digit_map_toLower :
    ∀ cs : List Char, (∀ c ∈ cs, isDigitChar c = true) →
      cs.map Char.toLower = cs
  | [], _ => rfl
  | c :: t, h => by
    simp only [List.map_cons]
    rw [isDigitChar_toLower (h c (List.mem_cons_self c t)),
      all_digit_map_toLower t (fun x hx => h x (List.mem_cons_of_mem c hx))]

theorem isDigits_map_toLower {cs : List Char} (h : isDigits cs = true) :
    cs.map Char.toLower = cs := by
  simp only [isDigits, Bool.and_eq_true, List.all_eq_true] at h
  exact all_digit_map_toLower cs h.2

theorem isDigits_take_ne_heyzo {cs : List Char} (h : isDigits cs = true) :
    (cs.map Char.toLower).take 6 ≠ "heyzo-".toList := by
  intro hEq
  rcases cs with _ | ⟨c, t⟩
  · simp [isDigits] at h
  · simp only [isDigits, Bool.and_eq_true, List.all_eq_true] at h
    have hc : isDigitChar c = true := h.2 c (List.mem_cons_self c t)
    have hlow : c.toLower = c := isDigitChar_toLower hc
    have : c.toLower = 'h' := by
      have h2 : (c.toLower :: (t.map Char.toLower)).take 6 = "heyzo-".toList := by
        simpa using hEq
      simpa using congrArg List.head? h2
    rw [hlow] at this
    subst this
    exact absurd hc (by decide)

end MetaTube

namespace MetaTube.Heyzo

theorem normalizeIDChars_digits {d : List Char} (hd : isDigits d = true) :
    normalizeIDChars d = d := by
  rw [normalizeIDChars, if_neg, if_pos hd]
  intro hcon
  exact isDigits_take_ne_heyzo hd hcon.1

theorem normalizeIDChars_grammar (p d : List Char)
    (hp : p.map Char.toLower = "heyzo-".toList ∨ p = [])
    (hd : isDigits d = true) :
    normalizeIDChars (p ++ d) = d := by
  rcases hp with hp | rfl
  · have hl : p.length = 6 := by
      have hlen := congrArg List.length hp
      simpa using hlen
    have h1 : ((p ++ d).map Char.toLower).take 6 = "heyzo-".toList := by
      rw [List.map_append, List.take_left' (by simpa using hl), hp]
    have h2 : (p ++ d).drop 6 = d := List.drop_left' hl
    rw [normalizeIDChars, if_pos ⟨h1, by rw [h2]; exact hd⟩, h2]
  · simpa using normalizeIDChars_digits hd

theorem normalizeIDChars_grammar_of_ne_nil {cs : List Char}
    (h : normalizeIDChars cs ≠ []) :
    ∃ p d, cs = p ++ d ∧ (p.map Char.toLower = "heyzo-".toList ∨ p = []) ∧
      isDigits d = true ∧ normalizeIDChars cs = d := by
  by_cases h1 : (cs.map Char.toLower).take 6 = "heyzo-".toList ∧
      isDigits (cs.drop 6) = true
  · refine ⟨cs.take 6, cs.drop 6, (List.take_append_drop 6 cs).symm, ?_, h1.2, ?_⟩
    · exact Or.inl (by rw [List.map_take]; exact h1.1)
    · rw [normalizeIDChars, if_pos h1]
  · by_cases h2 : isDigits cs = true
    · refine ⟨[], cs, rfl, Or.inr rfl, h2, ?_⟩
      rw [normalizeIDChars, if_neg h1, if_pos h2]
    · exact absurd (by rw [normalizeIDChars, if_neg h1, if_neg h2]) h

theorem normalizeIDChars_idem (cs : List Char) :
    normalizeIDChars (normalizeIDChars cs) = normalizeIDChars cs := by
  by_cases h : normalizeIDChars cs = []
  · rw [h]; rfl
  · obtain ⟨p, d, -, -, hd, hres⟩ := normalizeIDChars_grammar_of_ne_nil h
    rw [hres]
    exact normalizeIDChars_digits hd

end MetaTube.Heyzo

namespace MetaTube.Heyzo

/-- C7: `NormalizeID` returns the numeric suffix exactly when the input
matches the grammar (optional case-insensitive `heyzo-` prefix followed
by a required digit string and nothing else); whenever it returns a
non-empty string the input matched that grammar and the result is its
digit part (so any non-matching input yields the empty NotFound signal,
never a fault — the function is total); `"heyzo-1234"` normalizes to
`"1234"`. -/
theorem claim_c7_normalize_grammar (s : String) :
    (∀ p d : List Char, s.toList = p ++ d →
      (p.map Char.toLower = "heyzo-".toList ∨ p = []) →
      isDigits d = true →
      NormalizeID s = String.mk d)
    ∧ (NormalizeID s ≠ "" →
      ∃ p d : List Char, s.toList = p ++ d ∧
        (p.map Char.toLower = "heyzo-".toList ∨ p = []) ∧
        isDigits d = true ∧ NormalizeID s = String.mk d)
    ∧ NormalizeID "heyzo-1234" = "1234" := by
  refine ⟨?_, ?_, by decide⟩
  · intro p d hsplit hp hd
    rw [NormalizeID, hsplit, normalizeIDChars_grammar p d hp hd]
  · intro hne
    have hch : normalizeIDChars s.toList ≠ [] := by
      intro hnil
      exact hne (by rw [NormalizeID, hnil])
    obtain ⟨p, d, hsplit, hp, hd, hres⟩ := normalizeIDChars_grammar_of_ne_nil hch
    exact ⟨p, d, hsplit, hp, hd, by rw [NormalizeID, hres]⟩

/-- Witness for C7 at a concrete matching and a concrete non-matching
related input. -/
theorem claim_c7_normalize_grammar_witness :
    NormalizeID "HeYzO-007" = String.mk "007".toList ∧
    (∃ p d : List Char, "1234".toList = p ++ d ∧
      (p.map Char.toLower = "heyzo-".toList ∨ p = []) ∧
      isDigits d = true ∧ NormalizeID "1234" = String.mk d) := by
  constructor
  · exact (claim_c7_normalize_grammar "HeYzO-007").1 "HeYzO-".toList "007".toList
      (by decide) (Or.inl (by decide)) (by decide)
  · exact (claim_c7_normalize_grammar "1234").2.1 (by decide)

/-- C8: identifier normalization is idempotent and deterministic. -/
theorem claim_c8_normalize_idempotent (x y : String) :
    NormalizeID (NormalizeID x) = NormalizeID x ∧
    (x = y → NormalizeID x = NormalizeID y) := by
  constructor
  · exact congrArg String.mk (normalizeIDChars_idem x.toList)
  · intro h
    rw [h]

/-- Witness for C8 at a concrete input. -/
theorem claim_c8_normalize_idempotent_witness :
    NormalizeID (NormalizeID "heyzo-1234") = NormalizeID "heyzo-1234" ∧
    NormalizeID "heyzo-1234" = NormalizeID "heyzo-1234" :=
  ⟨(claim_c8_normalize_idempotent "heyzo-1234" "heyzo-1234").1,
    (claim_c8_normalize_idempotent "heyzo-1234" "heyzo-1234").2 rfl⟩

end MetaTube.Heyzo

namespace MetaTube.Heyzo

/-- C4: in nested resolution, a fetched media URI matching
`/sample/(\d+)/(\d+)/ts\.(.+?)\.m3u8` rewrites the preview-video URL to
the `sampleURL` template filled with the two digit groups and the
fragment; a non-matching URI leaves the preview-video URL untouched;
`/sample/7/8/ts.foo.m3u8` captures `7`, `8`, `foo`. -/
theorem claim_c4_sample_rewrite (link uri : String) (info : MovieInfo) :
    (∀ a b c : String, sampleMatch uri = some (a, b, c) →
      (handleNestedResponse link ⟨some uri⟩ info).previewVideoURL =
        "https://www.heyzo.com/contents/" ++ a ++ "/" ++ b ++ "/" ++ c)
    ∧ (sampleMatch uri = none →
      (handleNestedResponse link ⟨some uri⟩ info).previewVideoURL =
        info.previewVideoURL)
    ∧ sampleMatch "/sample/7/8/ts.foo.m3u8" = some ("7", "8", "foo") := by
  refine ⟨?_, ?_, by decide⟩
  · intro a b c h
    simp [handleNestedResponse, h]
  · intro h
    simp [handleNestedResponse, h]

/-- Witness for C4 at the matching example URI and a non-matching URI. -/
theorem claim_c4_sample_rewrite_witness :
    (handleNestedResponse "L" ⟨some "/sample/7/8/ts.foo.m3u8"⟩ {}).previewVideoURL =
      "https://www.heyzo.com/contents/" ++ "7" ++ "/" ++ "8" ++ "/" ++ "foo" ∧
    (handleNestedResponse "L" ⟨some "no-match"⟩ {}).previewVideoURL =
      ({} : MovieInfo).previewVideoURL :=
  ⟨(claim_c4_sample_rewrite "L" "/sample/7/8/ts.foo.m3u8" {}).1 "7" "8" "foo"
      (claim_c4_sample_rewrite "L" "/sample/7/8/ts.foo.m3u8" {}).2.2,
    (claim_c4_sample_rewrite "L" "no-match" {}).2.1 (by decide)⟩

/-- C5: whenever the nested manifest fetch yields a response, the
visited manifest URL is written to the preview-HLS field, for every
response — including one whose body fails to parse (`mediaURI = none`)
and one whose media URI does not match the sample pattern. -/
theorem claim_c5_hls_always_recorded (hp : String) (info : MovieInfo)
    (mid sid tplA tplB tplC : String) (resp : NestedResp)
    (hm : mid ≠ "") (hs : sid ≠ "") :
    (handlePlayer hp
        ⟨true, some mid, some sid, some (tplA, tplB, tplC), some resp⟩
        info).1.previewVideoHLSURL =
      MetaTube.absoluteURL hp (tplA ++ sid ++ tplB ++ mid ++ tplC) := by
  simp [handlePlayer, handleNestedResponse, hm, hs]

/-- Witness for C5: a response whose body parse failed still records
the manifest URL. -/
theorem claim_c5_hls_always_recorded_witness :
    (handlePlayer "https://www.heyzo.com/moviepages/1234/index.html"
        ⟨true, some "55", some "9", some ("/x/", "/y/", "/z"), some ⟨none⟩⟩
        {}).1.previewVideoHLSURL =
      MetaTube.absoluteURL "https://www.heyzo.com/moviepages/1234/index.html"
        ("/x/" ++ "9" ++ "/y/" ++ "55" ++ "/z") :=
  claim_c5_hls_always_recorded "https://www.heyzo.com/moviepages/1234/index.html"
    {} "55" "9" "/x/" "/y/" "/z" ⟨none⟩ (by decide) (by decide)



theorem handlePlayer_fetchFail_fst (hp : String) (pev : PlayerScript)
    (info : MovieInfo) (hfail : pev.fetchResult = none) :
    (handlePlayer hp pev info).1 = info := by
  rcases pev with ⟨hasM, mt, st, tpl, fr⟩
  simp only at hfail
  subst hfail
  cases hasM
  · rfl
  · simp only [handlePlayer, Bool.not_true]
    rw [if_neg (show ¬(false = true) by decide)]
    by_cases hc : (decide (mt.getD "" = "") || decide (st.getD "" = "")) = true
    · rw [if_pos hc]
    · rw [if_neg hc]
      rcases tpl with _ | ⟨⟨a, b, c⟩⟩
      · rfl
      · rfl

/-- C6: when the nested manifest fetch fails (`d.Visit` returns an
error, so the response handler never runs), the player-script callback
leaves the whole record — in particular the preview-video URL —
unchanged, and the top-level assembly still returns the record with a
nil error: the nested failure is swallowed. -/
theorem claim_c6_nested_failure_swallowed (hp rawURL id : String)
    (pev : PlayerScript) (info : MovieInfo) (evs : List Event)
    (hfail : pev.fetchResult = none) :
    (handlePlayer hp pev info).1 = info ∧
    (GetMovieInfoByURL rawURL (.ok id) (.ok evs)).2 = none :=
  ⟨handlePlayer_fetchFail_fst hp pev info hfail, rfl⟩

/-- Witness for C6 at a concrete failed nested fetch. -/
theorem claim_c6_nested_failure_swallowed_witness :
    (handlePlayer "hp" ⟨true, some "55", some "9", some ("/x/", "/y/", "/z"), none⟩
        {}).1 = ({} : MovieInfo) ∧
    (GetMovieInfoByURL "u" (.ok "1")
        (.ok [.playerScript ⟨true, some "55", some "9", some ("/x/", "/y/", "/z"), none⟩])).2 =
      none :=
  claim_c6_nested_failure_swallowed "hp" "u" "1"
    ⟨true, some "55", some "9", some ("/x/", "/y/", "/z"), none⟩ {}
    [.playerScript ⟨true, some "55", some "9", some ("/x/", "/y/", "/z"), none⟩]
    rfl

/-- C9: the token-substitution decoder is a no-op when the `movieId`
substring test fails, when either identifier token is missing or empty,
or when the stream template pattern is missing: the record is unchanged
and no nested fetch is issued (and the handler has no error channel at
all, so no error is produced). -/
theorem claim_c9_token_missing_noop (hp : String) (pev : PlayerScript)
    (info : MovieInfo)
    (h : pev.hasMovieId = false ∨ pev.movieIdTok.getD "" = "" ∨
      pev.siteIdTok.getD "" = "" ∨ pev.streamTpl = none) :
    handlePlayer hp pev info = (info, none) := by
  rcases pev with ⟨hasM, mt, st, tpl, fr⟩
  simp only at h
  cases hasM
  · rfl
  · simp only [handlePlayer, Bool.not_true]
    rw [if_neg (show ¬(false = true) by decide)]
    rcases h with h | h | h | h
    · exact absurd h (by decide)
    · rw [if_pos (by simp [h])]
    · rw [if_pos (by simp [h])]
    · subst h
      by_cases hc : (decide (mt.getD "" = "") || decide (st.getD "" = "")) = true
      · rw [if_pos hc]
      · rw [if_neg hc]

/-- Witness for C9 at a script with no `siteID` token. -/
theorem claim_c9_token_missing_noop_witness :
    handlePlayer "hp" ⟨true, some "55", none, some ("/x/", "/y/", "/z"), none⟩ {} =
      (({} : MovieInfo), none) :=
  claim_c9_token_missing_noop "hp"
    ⟨true, some "55", none, some ("/x/", "/y/", "/z"), none⟩ {}
    (Or.inr (Or.inr (Or.inl rfl)))

theorem handleNestedResponse_preserves_thumb_cover (link : String)
    (resp : NestedResp) (info : MovieInfo) :
    (handleNestedResponse link resp info).thumbURL = info.thumbURL ∧
    (handleNestedResponse link resp info).coverURL = info.coverURL := by
  rcases resp with ⟨_ | uri⟩
  · exact ⟨rfl, rfl⟩
  · simp only [handleNestedResponse]
    rcases hsm : sampleMatch uri with _ | ⟨⟨s1, s2, s3⟩⟩ <;> simp [hsm]

theorem handlePlayer_preserves_thumb_cover (hp : String) (pev : PlayerScript)
    (info : MovieInfo) :
    (handlePlayer hp pev info).1.thumbURL = info.thumbURL ∧
    (handlePlayer hp pev info).1.coverURL = info.coverURL := by
  rcases pev with ⟨hasM, mt, st, tpl, fr⟩
  cases hasM
  · exact ⟨rfl, rfl⟩
  · simp only [handlePlayer, Bool.not_true]
    rw [if_neg (show ¬(false = true) by decide)]
    by_cases hc : (decide (mt.getD "" = "") || decide (st.getD "" = "")) = true
    · rw [if_pos hc]
      exact ⟨rfl, rfl⟩
    · rw [if_neg hc]
      rcases tpl with _ | ⟨⟨a, b, c⟩⟩
      · exact ⟨rfl, rfl⟩
      · rcases fr with _ | resp
        · exact ⟨rfl, rfl⟩
        · exact handleNestedResponse_preserves_thumb_cover _ resp info

theorem applyEvent_preserves_thumb_cover (hp : String) (info : MovieInfo)
    (ev : Event) (h : info.thumbURL = info.coverURL) :
    (applyEvent hp info ev).thumbURL = (applyEvent hp info ev).coverURL := by
  cases ev with
  | ldJson data =>
    rcases data with _ | d
    · exact h
    · rfl
  | movieTitle fields =>
    simp only [applyEvent]
    split <;> simpa using h
  | memo text =>
    simp only [applyEvent]
    split <;> simpa using h
  | ogImage content =>
    simp only [applyEvent]
    split
    · rfl
    · exact h
  | infoRow label td2 spans rating =>
    simp only [applyEvent]
    split_ifs <;> simpa using h
  | tagList tags => simpa using h
  | jsScript emvideo oFull =>
    rcases emvideo with _ | v <;> rcases oFull with _ | f <;> simpa using h
  | playerScript pev =>
    have hpc := handlePlayer_preserves_thumb_cover hp pev info
    simp only [applyEvent, hpc.1, hpc.2]
    exact h
  | sampleImages subs => simpa using h

theorem runEvents_preserves_thumb_cover (hp : String) :
    ∀ (evs : List Event) (info : MovieInfo),
      info.thumbURL = info.coverURL →
      (runEvents hp evs info).thumbURL = (runEvents hp evs info).coverURL
  | [], _, h => h
  | ev :: rest, info, h =>
    runEvents_preserves_thumb_cover hp rest (applyEvent hp info ev)
      (applyEvent_preserves_thumb_cover hp info ev h)

/-- C10: every movie record returned by `GetMovieInfoByURL` has its
thumbnail URL equal to its cover URL: both writers (the embedded-JSON
extractor and the og:image fallback) copy the cover into the thumbnail,
no extractor sets the thumbnail independently, and the seeded record
starts with both empty. -/
theorem claim_c10_thumb_eq_cover (rawURL : String)
    (idResult : Except MetaTube.Err String)
    (fetch : Except MetaTube.Err (List Event)) (info : MovieInfo)
    (errOpt : Option MetaTube.Err)
    (h : GetMovieInfoByURL rawURL idResult fetch = (some info, errOpt)) :
    info.thumbURL = info.coverURL := by
  rcases idResult with e | id
  · simp [GetMovieInfoByURL] at h
  · rcases fetch with e | evs
    · simp only [GetMovieInfoByURL, Prod.mk.injEq, Option.some.injEq] at h
      rw [← h.1]
      rfl
    · simp only [GetMovieInfoByURL, Prod.mk.injEq, Option.some.injEq] at h
      rw [← h.1]
      exact runEvents_preserves_thumb_cover rawURL evs (seedMovieInfo id rawURL) rfl

/-- Witness for C10 at a concrete successful assembly in which the
embedded-JSON extractor sets both fields. -/
theorem claim_c10_thumb_eq_cover_witness :
    (runEvents "u" [.ldJson (some { image := "/img/1234.jpg" })]
        (seedMovieInfo "1234" "u")).thumbURL =
      (runEvents "u" [.ldJson (some { image := "/img/1234.jpg" })]
        (seedMovieInfo "1234" "u")).coverURL :=
  claim_c10_thumb_eq_cover "u" (.ok "1234")
    (.ok [.ldJson (some { image := "/img/1234.jpg" })])
    (runEvents "u" [.ldJson (some { image := "/img/1234.jpg" })]
      (seedMovieInfo "1234" "u"))
    none rfl

end MetaTube.Heyzo

namespace MetaTube

/-- C2 counterexample: with the primary document fetch failing, the Go
code (named returns `info, err`; `err = c.Visit(...)` then `return`)
hands the caller the seeded-defaults record TOGETHER with the fetch
error — the record is not nil, contradicting the claim that a fetch
error comes with no record. -/
theorem claim_c2_counterexample :
    Heyzo.GetMovieInfoByURL "https://www.heyzo.com/moviepages/1234/index.html"
        (.ok "1234") (.error "connection refused") =
      (some (Heyzo.seedMovieInfo "1234"
          "https://www.heyzo.com/moviepages/1234/index.html"),
        some "connection refused") ∧
    (some (Heyzo.seedMovieInfo "1234"
        "https://www.heyzo.com/moviepages/1234/index.html") ≠
      (none : Option Heyzo.MovieInfo)) :=
  ⟨rfl, Option.some_ne_none _⟩

/-- C2 (amended): when the primary document fetch fails, both record
assemblers return that fetch error verbatim, but paired with the
seeded-defaults record (a non-nil pointer), not with no record; only a
failure of the URL-parsing step before the fetch yields no record. -/
theorem claim_c2_fetch_error_amended (rawURL id e e2 : String)
    (pu : XsList.GoURL) :
    Heyzo.GetMovieInfoByURL rawURL (.ok id) (.error e) =
      (some (Heyzo.seedMovieInfo id rawURL), some e) ∧
    XsList.GetActorInfoByURL (.ok pu) (.error e) =
      (some (XsList.seedActorInfo pu), some e) ∧
    Heyzo.GetMovieInfoByURL rawURL (.error e2) (.error e) = (none, some e2) ∧
    XsList.GetActorInfoByURL (.error e2) (.error e) = (none, some e2) :=
  ⟨rfl, rfl, rfl, rfl⟩

end MetaTube

namespace MetaTube.XsList

/-- C1 counterexample: the free-text key/value extractor (registered
first, hence higher priority) writes the nationality with a non-empty
value, and the later-running `itemprop="nationality"` extractor then
replaces it unconditionally — the assembled record carries the later
extractor's value, not the first one's. -/
theorem claim_c1_counterexample :
    (runEvents [.fieldsP [.text "国籍: Japan"]]
        (seedActorInfo ⟨"https://xslist.org/zh/model/123.html",
          "/zh/model/123.html"⟩)).nationality = "Japan" ∧
    (runEvents [.fieldsP [.text "国籍: Japan"], .natSpan "China"]
        (seedActorInfo ⟨"https://xslist.org/zh/model/123.html",
          "/zh/model/123.html"⟩)).nationality = "China" ∧
    ("China" : String) ≠ "Japan" := by
  refine ⟨by decide, by decide, by decide⟩

end MetaTube.XsList

namespace MetaTube

/-- C1 (amended): whether an earlier-written scalar field survives a
later matching extractor depends on the later extractor's guard.  The
fallback extractors for title, summary and cover/thumb write only when
the field is still empty (first non-empty value wins there), while the
details-table release-date and score rows and the itemprop
height/nationality extractors assign unconditionally, so for those
fields the last-running extractor's value wins, replacing any value an
earlier extractor had set. -/
theorem claim_c1_first_wins_amended (hp : String) (m : Heyzo.MovieInfo)
    (a : XsList.ActorInfo) (fields : List String) (t c v rating tx : String)
    (spans : List String)
    (ht : m.title ≠ "") (hs : m.summary ≠ "") (hc : m.coverURL ≠ "") :
    Heyzo.applyEvent hp m (.movieTitle fields) = m ∧
    Heyzo.applyEvent hp m (.memo t) = m ∧
    Heyzo.applyEvent hp m (.ogImage c) = m ∧
    Heyzo.applyEvent hp m (.infoRow "公開日" v spans rating) =
      { m with releaseDate := parseDate v } ∧
    Heyzo.applyEvent hp m (.infoRow "評価" v spans rating) =
      { m with score := parseScore rating } ∧
    XsList.applyEvent a (.heightSpan tx) =
      { a with height := parseInt (trimRightCM tx) } ∧
    XsList.applyEvent a (.natSpan tx) = { a with nationality := removeNA tx } := by
  refine ⟨?_, ?_, ?_, rfl, rfl, rfl, rfl⟩
  · simp [Heyzo.applyEvent, ht]
  · simp [Heyzo.applyEvent, hs]
  · simp [Heyzo.applyEvent, hc]

/-- Witness for C1 (amended) at a concrete already-populated record. -/
theorem claim_c1_first_wins_amended_witness :
    Heyzo.applyEvent "u"
        { title := "T", summary := "S", coverURL := "C" }
        (.movieTitle ["X"]) =
      { title := "T", summary := "S", coverURL := "C" } ∧
    XsList.applyEvent { nationality := "Japan" } (.natSpan "China") =
      { nationality := removeNA "China" } :=
  ⟨(claim_c1_first_wins_amended "u"
      { title := "T", summary := "S", coverURL := "C" }
      { nationality := "Japan" } ["X"] "m" "c" "v" "r" "China" []
      (by decide) (by decide) (by decide)).1,
    (claim_c1_first_wins_amended "u"
      { title := "T", summary := "S", coverURL := "C" }
      { nationality := "Japan" } ["X"] "m" "c" "v" "r" "China" []
      (by decide) (by decide) (by decide)).2.2.2.2.2.2⟩

end MetaTube

namespace MetaTube.XsList

/-- C3 (code bug): in `SearchActor` the local variable `name`
(the hyphen-stripped display name) shadows the package-level provider
constant, so for the listing titled `"1 - Jane Doe"` the produced
result's provider field holds `"Jane Doe"` — not the stable provider
name `"xslist"` the claim (and the rest of the provider) uses. -/
theorem claim_c3_search_provider_shadowed :
    SearchActor "Jane"
        (.ok [⟨"https://xslist.org/zh/model/123.html", "/zh/model/123.html",
          "1 - Jane Doe", ""⟩]) =
      ([{ id := "123", name := "Jane Doe", provider := "Jane Doe",
          homepage := "https://xslist.org/zh/model/123.html", images := [] }],
        none) ∧
    ("Jane Doe" : String) ≠ providerName :=
  ⟨by decide, by decide⟩

end MetaTube.XsList
